import Mathlib

/-!
Verification development for the MTO-NWP-Data downloader repository.

The Python sources under src/src are shallowly embedded:
* UTC instants are integers counting microseconds from an arbitrary epoch
  (Python `datetime` arithmetic on UTC datetimes is exact at microsecond
  granularity, and `//` / `%` on Python ints agree with `Int.ediv` /
  `Int.emod` for positive divisors).
* Calendar-formatted run timestamps (`strftime`) are embedded as a record
  of the calendar fields the format strings read.
* Raising an exception is embedded as `Option`/`Except`; the store of
  already-downloaded files and the HTTP transport are explicit parameters.
-/

/-! ### Time model for the run-time resolvers -/

def usPerHour : ℤ := 3600000000

def usPerDay : ℤ := 86400000000

/-- Hour-of-day of an instant, as Python's `datetime.hour`. -/
def pyHour (t : ℤ) : ℤ := t % usPerDay / usPerHour

/-- Python `t.replace(hour := h, minute := 0, second := 0, microsecond := 0)`:
keep the calendar day of `t`, set the time-of-day to `h` whole hours. -/
def replaceHourFloor (t h : ℤ) : ℤ := t - t % usPerDay + h * usPerHour

/-- `floor_to_6h` from src/src/components/gfs.py: floor the hour of day to a
multiple of 6 and zero minute/second/microsecond. -/
def floor_to_6h (t : ℤ) : ℤ := replaceHourFloor t (pyHour t / 6 * 6)

/-- Python `t.replace(minute := 0, second := 0, microsecond := 0)`. -/
def floorToHour (t : ℤ) : ℤ := t - t % usPerHour

def gfs6hDomains : List String :=
  ["gfs05_ens", "gfs025_ens", "gfswave025_ens",
   "gfs013", "gfs025", "gfswave025", "gfswave016"]

def hrrrDomains : List String := ["hrrr_conus", "hrrr_conus_15min"]

/-- `last_run` from src/src/components/gfs.py with the clock injected;
`none` embeds the `ValueError` raised for an unknown domain. -/
def last_run (domain : String) (now : ℤ) : Option ℤ :=
  if domain ∈ gfs6hDomains then some (floor_to_6h (now - 4 * usPerHour))
  else if domain = "nam_conus" then some (floor_to_6h (now - 2 * usPerHour))
  else if domain ∈ hrrrDomains then some (floorToHour now)
  else none

def arpegeDomains : List String := ["arpege_europe", "arpege_world"]

/-- `guess_last_run` from src/src/components/arpage.py with the clock
injected; both registered ARPEGE domains have `update_interval_hours = 6`,
and `DOMAINS[domain]` raising `KeyError` is embedded as `none`. -/
def guess_last_run (domain : String) (now : ℤ) : Option ℤ :=
  if domain ∈ arpegeDomains then some (floor_to_6h (now - 2 * usPerHour))
  else none

/-- `get_latest_run` from src/src/components/icon.py with the clock
injected. -/
def get_latest_run (now : ℤ) : ℤ := floor_to_6h (now - 4 * usPerHour)

theorem floor_to_6h_le (t : ℤ) : floor_to_6h t ≤ t := by
  unfold floor_to_6h replaceHourFloor pyHour usPerDay usPerHour
  omega

theorem floor_to_6h_wholeHour (t : ℤ) : floor_to_6h t % usPerHour = 0 := by
  unfold floor_to_6h replaceHourFloor pyHour usPerDay usPerHour
  omega

theorem floor_to_6h_hourMod6 (t : ℤ) : pyHour (floor_to_6h t) % 6 = 0 := by
  unfold floor_to_6h replaceHourFloor pyHour usPerDay usPerHour
  omega

theorem floorToHour_le (t : ℤ) : floorToHour t ≤ t := by
  unfold floorToHour usPerHour
  omega

theorem floorToHour_wholeHour (t : ℤ) : floorToHour t % usPerHour = 0 := by
  unfold floorToHour usPerHour
  omega

/-- Claim C1: for every domain and injected clock value `now`, each run-time
resolver (`last_run` for GFS-family domains, `guess_last_run` for ARPEGE
domains, `get_latest_run` for ICON) returns a timestamp at or before `now`
with zero minute/second/microsecond, whose hour of day is a multiple of 6
except for the hourly-cadence HRRR domains. -/
theorem c1_resolvers_aligned_and_le (domain : String) (now : ℤ) :
    (∀ r, last_run domain now = some r →
      r ≤ now ∧ r % usPerHour = 0 ∧ (domain ∉ hrrrDomains → pyHour r % 6 = 0))
    ∧ (∀ r, guess_last_run domain now = some r →
      r ≤ now ∧ r % usPerHour = 0 ∧ pyHour r % 6 = 0)
    ∧ (get_latest_run now ≤ now ∧ get_latest_run now % usPerHour = 0 ∧
        pyHour (get_latest_run now) % 6 = 0) := by
  refine ⟨?_, ?_, ?_⟩
  · intro r hr
    unfold last_run at hr
    split_ifs at hr with h1 h2 h3 <;> injection hr with hr <;> subst hr
    · exact ⟨le_trans (floor_to_6h_le _) (by unfold usPerHour; omega), floor_to_6h_wholeHour _,
        fun _ => floor_to_6h_hourMod6 _⟩
    · exact ⟨le_trans (floor_to_6h_le _) (by unfold usPerHour; omega), floor_to_6h_wholeHour _,
        fun _ => floor_to_6h_hourMod6 _⟩
    · exact ⟨floorToHour_le _, floorToHour_wholeHour _, fun hc => absurd h3 hc⟩
  · intro r hr
    unfold guess_last_run at hr
    split_ifs at hr with h1
    injection hr with hr
    subst hr
    exact ⟨le_trans (floor_to_6h_le _) (by unfold usPerHour; omega), floor_to_6h_wholeHour _,
      floor_to_6h_hourMod6 _⟩
  · exact ⟨le_trans (floor_to_6h_le _) (by unfold usPerHour; omega), floor_to_6h_wholeHour _,
      floor_to_6h_hourMod6 _⟩

/-- Concrete instantiation of `c1_resolvers_aligned_and_le`: the GFS
resolver at clock value 0 returns the aligned run 6 hours into the previous
day. -/
theorem c1_resolvers_aligned_and_le_witness :
    (-21600000000 : ℤ) ≤ 0 ∧ (-21600000000 : ℤ) % usPerHour = 0 ∧
      ("gfs025" ∉ hrrrDomains → pyHour (-21600000000) % 6 = 0) :=
  (c1_resolvers_aligned_and_le "gfs025" 0).1 (-21600000000) (by decide)

/-! ### Step enumerators -/

set_option maxRecDepth 40000

/-- Python `range(start, stop, step)` for a positive `step`. -/
def pyRange (start stop step : ℕ) : List ℕ :=
  (List.range ((stop - start + step - 1) / step)).map (fun i => start + step * i)

/-- The `DOMAINS` constant of src/src/components/gfs.py. -/
def gfsDOMAINS : List String :=
  ["gfs013", "gfs025", "gfs025_ens", "gfs05_ens",
   "gfswave025", "gfswave016", "gfswave025_ens",
   "nam_conus", "hrrr_conus", "hrrr_conus_15min"]

/-- `forecast_hours` from src/src/components/gfs.py; `none` embeds the
`ValueError` raised for an unknown domain. -/
def forecast_hours (domain : String) (run_hour : ℕ) (second_flush : Bool) :
    Option (List ℕ) :=
  if domain = "gfs05_ens" then
    if second_flush then some (pyRange 390 841 6)
    else some (pyRange 0 240 3 ++ pyRange 240 385 6)
  else if domain ∈ ["gfs025_ens", "gfswave025_ens"] then some (pyRange 0 241 3)
  else if domain ∈ ["gfs013", "gfs025", "gfswave025", "gfswave016"] then
    some (pyRange 0 120 1 ++ pyRange 120 385 3)
  else if domain = "nam_conus" then some (pyRange 0 61 1)
  else if domain = "hrrr_conus" then
    (if run_hour % 6 = 0 then some (pyRange 0 49 1) else some (pyRange 0 19 1))
  else if domain = "hrrr_conus_15min" then some (pyRange 0 73 1)
  else none

/-- Boolean: the first list is an initial segment of the second. -/
def startsWith : List Char → List Char → Bool
  | [], _ => true
  | _ :: _, [] => false
  | a :: pa, b :: s => decide (a = b) && startsWith pa s

/-- Boolean: `pat` occurs contiguously inside the second list. -/
def containsSeq (pat : List Char) : List Char → Bool
  | [] => startsWith pat []
  | c :: rest => startsWith pat (c :: rest) || containsSeq pat rest

/-- Python's substring test `pat in s`. -/
def strContains (s pat : String) : Bool := containsSeq pat.data s.data

/-- The alias normalisation at the top of `EcmwfDomain.__init__`
(src/src/components/ecmwf.py). -/
def ecmwfResolveAlias (name : String) : String :=
  if name = "aifs025" then "aifs025_single"
  else if name = "ifs" then "ifs025"
  else name

/-- `EcmwfDomain.CONFIG` (src/src/components/ecmwf.py): system directory,
resolution and default stream per domain name (the human-readable
description field is not modelled). -/
def ecmwfConfig (name : String) : Option (String × String × String) :=
  if name = "aifs025_single" then some ("aifs-single", "0p25", "oper")
  else if name = "aifs025_ensemble" then some ("aifs-ens", "0p25", "enfo")
  else if name = "ifs025" then some ("ifs", "0p25", "oper")
  else if name = "ifs025_ensemble" then some ("ifs", "0p25", "enfo")
  else if name = "wam025" then some ("ifs", "0p25", "wave")
  else if name = "wam025_ensemble" then some ("ifs", "0p25", "waef")
  else none

structure EcmwfDomain where
  name : String
  system : String
  resolution : String
  base_stream : String
deriving DecidableEq

/-- `EcmwfDomain.__init__`: alias resolution followed by config lookup;
`none` embeds the `ValueError` for an unknown domain. -/
def ecmwfDomainInit (name0 : String) : Option EcmwfDomain :=
  match ecmwfConfig (ecmwfResolveAlias name0) with
  | some (sys, res, stream) => some ⟨ecmwfResolveAlias name0, sys, res, stream⟩
  | none => none

/-- `EcmwfDomain.get_download_forecast_steps` (src/src/components/ecmwf.py). -/
def EcmwfDomain.get_download_forecast_steps (d : EcmwfDomain) (run_hour : ℕ) :
    List ℕ :=
  if strContains d.name "aifs" then pyRange 0 361 6
  else if run_hour = 0 ∨ run_hour = 12 then pyRange 0 243 3
  else if run_hour = 6 ∨ run_hour = 18 then pyRange 0 93 3
  else []

/-- Domain construction followed by step enumeration, as `download_ecmwf`
performs it. -/
def ecmwfSteps (domain : String) (run_hour : ℕ) : Option (List ℕ) :=
  (ecmwfDomainInit domain).map (fun d => d.get_download_forecast_steps run_hour)

/-- Maximum published lead time per (domain, run hour, second-flush flag),
read off the step tables in `forecast_hours`. -/
def maxHorizon (domain : String) (run_hour : ℕ) (second_flush : Bool) : ℕ :=
  if domain = "gfs05_ens" then (if second_flush then 840 else 384)
  else if domain ∈ ["gfs025_ens", "gfswave025_ens"] then 240
  else if domain ∈ ["gfs013", "gfs025", "gfswave025", "gfswave016"] then 384
  else if domain = "nam_conus" then 60
  else if domain = "hrrr_conus" then (if run_hour % 6 = 0 then 48 else 18)
  else if domain = "hrrr_conus_15min" then 72
  else 0

/-- Maximum published lead time per (resolved ECMWF domain name, run hour),
read off the tables in `EcmwfDomain.get_download_forecast_steps`. -/
def ecmwfMaxHorizon (name : String) (run_hour : ℕ) : ℕ :=
  if strContains name "aifs" then 360
  else if run_hour = 0 ∨ run_hour = 12 then 240
  else if run_hour = 6 ∨ run_hour = 18 then 90
  else 0

theorem ecmwfDomainInit_name {s : String} {d : EcmwfDomain}
    (h : ecmwfDomainInit s = some d) : d.name = ecmwfResolveAlias s := by
  unfold ecmwfDomainInit at h
  rcases hc : ecmwfConfig (ecmwfResolveAlias s) with _ | ⟨sys, res, stream⟩ <;>
    rw [hc] at h
  · exact absurd h (by simp)
  · injection h with h
    subst h
    rfl

/-- Claim C2: every step sequence the enumerators return is strictly
increasing (hence duplicate-free) and bounded by the domain's maximum
horizon for that run hour. -/
theorem c2_steps_increasing_bounded (domain : String) (run_hour : ℕ)
    (second_flush : Bool) :
    (∀ l, forecast_hours domain run_hour second_flush = some l →
      l.Pairwise (· < ·) ∧ ∀ s ∈ l, s ≤ maxHorizon domain run_hour second_flush)
    ∧ (∀ l, ecmwfSteps domain run_hour = some l →
      l.Pairwise (· < ·) ∧
        ∀ s ∈ l, s ≤ ecmwfMaxHorizon (ecmwfResolveAlias domain) run_hour) := by
  constructor
  · intro l hl
    unfold forecast_hours at hl
    unfold maxHorizon
    split_ifs at hl ⊢ <;> injection hl with hl <;> subst hl <;>
      exact ⟨by decide, by decide⟩
  · intro l hl
    unfold ecmwfSteps at hl
    rw [Option.map_eq_some'] at hl
    obtain ⟨d, hd, rfl⟩ := hl
    rw [← ecmwfDomainInit_name hd]
    unfold EcmwfDomain.get_download_forecast_steps ecmwfMaxHorizon
    split_ifs <;> exact ⟨by decide, by decide⟩

/-- Concrete instantiation of `c2_steps_increasing_bounded`: the gfs025
step table for the 00 UTC run, with its 1-hourly/3-hourly seam at 120. -/
theorem c2_steps_increasing_bounded_witness :
    (pyRange 0 120 1 ++ pyRange 120 385 3).Pairwise (· < ·) ∧
      ∀ s ∈ pyRange 0 120 1 ++ pyRange 120 385 3, s ≤ maxHorizon "gfs025" 0 false :=
  (c2_steps_increasing_bounded "gfs025" 0 false).1
    (pyRange 0 120 1 ++ pyRange 120 385 3) rfl

/-! ### Decimal formatting (Python `str` and zero-padded format specs) -/

def digitChar (d : ℕ) : Char := Char.ofNat (48 + d)

def natDigitsCore : ℕ → ℕ → List Char
  | 0, _ => []
  | fuel + 1, n =>
    if n < 10 then [digitChar n]
    else natDigitsCore fuel (n / 10) ++ [digitChar (n % 10)]

/-- Decimal rendering of a natural number, as Python `str(n)` (fuel-based
so that it reduces definitionally). -/
def natDigits (n : ℕ) : List Char := natDigitsCore (n + 1) n

/-- Zero padding to width `w`, as Python's `0` format specs; numbers wider
than `w` keep all their digits. -/
def padZ (w : ℕ) (s : List Char) : List Char :=
  List.replicate (w - s.length) '0' ++ s

/-- Python zero-padded decimal formatting of width `w`. -/
def fmt (w n : ℕ) : List Char := padZ w (natDigits n)

/-- Reads a decimal digit string back to its value. -/
def digitsVal (l : List Char) : ℕ :=
  l.foldl (fun a c => 10 * a + (c.toNat - 48)) 0

theorem digitChar_toNat : ∀ d < 10, (digitChar d).toNat = 48 + d := by decide

theorem natDigitsCore_foldl :
    ∀ fuel n a, n < fuel →
      (natDigitsCore fuel n).foldl (fun a c => 10 * a + (c.toNat - 48)) a =
        a * 10 ^ (natDigitsCore fuel n).length + n := by
  intro fuel
  induction fuel with
  | zero => intro n a h; omega
  | succ fuel ih =>
    intro n a h
    by_cases h10 : n < 10
    · simp only [natDigitsCore, if_pos h10, List.foldl_cons, List.foldl_nil,
        List.length_cons, List.length_nil, digitChar_toNat n h10]
      ring_nf
      omega
    · have hdivfuel : n / 10 < fuel := by omega
      simp only [natDigitsCore, if_neg h10, List.foldl_append, List.foldl_cons,
        List.foldl_nil, List.length_append, List.length_cons, List.length_nil,
        ih (n / 10) a hdivfuel, digitChar_toNat (n % 10) (by omega)]
      rw [pow_succ]
      have : 10 * (n / 10) + n % 10 = n := by omega
      ring_nf
      omega

theorem digitsVal_natDigits (n : ℕ) : digitsVal (natDigits n) = n := by
  unfold digitsVal natDigits
  rw [natDigitsCore_foldl (n + 1) n 0 (by omega)]
  ring

theorem digitsVal_padZ (w : ℕ) (s : List Char) :
    digitsVal (padZ w s) = digitsVal s := by
  unfold digitsVal padZ
  rw [List.foldl_append]
  congr 1
  induction w - s.length with
  | zero => rfl
  | succ k ih => simpa [List.replicate_succ] using ih

theorem digitsVal_fmt (w n : ℕ) : digitsVal (fmt w n) = n := by
  rw [fmt, digitsVal_padZ, digitsVal_natDigits]

theorem natDigits_inj {n₁ n₂ : ℕ} (h : natDigits n₁ = natDigits n₂) : n₁ = n₂ := by
  have := congrArg digitsVal h
  rwa [digitsVal_natDigits, digitsVal_natDigits] at this

theorem fmt_inj {w n₁ n₂ : ℕ} (h : fmt w n₁ = fmt w n₂) : n₁ = n₂ := by
  have := congrArg digitsVal h
  rwa [digitsVal_fmt, digitsVal_fmt] at this

theorem natDigitsCore_length :
    ∀ fuel w n, n < fuel → n < 10 ^ w → 0 < w →
      (natDigitsCore fuel n).length ≤ w := by
  intro fuel
  induction fuel with
  | zero => intro w n h; omega
  | succ fuel ih =>
    intro w n hf hw hw0
    by_cases h10 : n < 10
    · simpa [natDigitsCore, if_pos h10] using hw0
    · have hw2 : 2 ≤ w := by
        by_contra hlt
        have hw1 : w = 1 := by omega
        rw [hw1, pow_one] at hw
        omega
      have hdiv : n / 10 < 10 ^ (w - 1) := by
        rw [Nat.div_lt_iff_lt_mul (by omega)]
        calc n < 10 ^ w := hw
        _ = 10 ^ (w - 1) * 10 := by
            rw [← pow_succ]
            congr 1
            omega
      have := ih (w - 1) (n / 10) (by omega) hdiv (by omega)
      simp only [natDigitsCore, if_neg h10, List.length_append,
        List.length_cons, List.length_nil]
      omega

theorem fmt_length {w n : ℕ} (hw : 0 < w) (h : n < 10 ^ w) :
    (fmt w n).length = w := by
  have := natDigitsCore_length (n + 1) w n (by omega) h hw
  unfold fmt padZ natDigits
  simp only [List.length_append, List.length_replicate]
  unfold natDigits at this
  omega

theorem fmt_strip {w n₁ n₂ : ℕ} {r₁ r₂ : List Char} (hw : 0 < w)
    (h₁ : n₁ < 10 ^ w) (h₂ : n₂ < 10 ^ w)
    (h : fmt w n₁ ++ r₁ = fmt w n₂ ++ r₂) : n₁ = n₂ ∧ r₁ = r₂ := by
  have hl : (fmt w n₁).length = (fmt w n₂).length := by
    rw [fmt_length hw h₁, fmt_length hw h₂]
  obtain ⟨hf, hr⟩ := List.append_inj h hl
  exact ⟨fmt_inj hf, hr⟩

theorem append_cancel_l {p a b : List Char} (h : p ++ a = p ++ b) : a = b := by
  induction p with
  | nil => simpa using h
  | cons c p ih =>
    injection h with _ h
    exact ih h

theorem append_cancel_r {a b s : List Char} (h : a ++ s = b ++ s) : a = b := by
  have hlen : a.length = b.length := by
    have := congrArg List.length h
    simp only [List.length_append] at this
    omega
  exact (List.append_inj h hlen).1

theorem natDigits_strip {n₁ n₂ : ℕ} {r : List Char}
    (h : natDigits n₁ ++ r = natDigits n₂ ++ r) : n₁ = n₂ :=
  natDigits_inj (append_cancel_r h)

theorem natDigitsCore_codes :
    ∀ fuel n c, c ∈ natDigitsCore fuel n → c.toNat < 58 := by
  intro fuel
  induction fuel with
  | zero => intro n c h; simp [natDigitsCore] at h
  | succ fuel ih =>
    intro n c h
    by_cases h10 : n < 10
    · simp only [natDigitsCore, if_pos h10, List.mem_singleton] at h
      subst h
      rw [digitChar_toNat n h10]
      omega
    · simp only [natDigitsCore, if_neg h10, List.mem_append,
        List.mem_singleton] at h
      rcases h with h | h
      · exact ih (n / 10) c h
      · subst h
        rw [digitChar_toNat (n % 10) (by omega)]
        omega

theorem natDigits_no_underscore {n : ℕ} {c : Char} (h : c ∈ natDigits n) :
    c ≠ '_' := by
  intro hc
  subst hc
  exact absurd (natDigitsCore_codes (n + 1) n '_' h) (by decide)

theorem headSep_split :
    ∀ (d₁ : List Char) {d₂ v₁ v₂ : List Char}, '_' ∉ d₁ → '_' ∉ d₂ →
      d₁ ++ '_' :: v₁ = d₂ ++ '_' :: v₂ → d₁ = d₂ ∧ v₁ = v₂ := by
  intro d₁
  induction d₁ with
  | nil =>
    intro d₂ v₁ v₂ _ h₂ h
    cases d₂ with
    | nil =>
      injection h with _ h
      exact ⟨rfl, h⟩
    | cons c d₂ =>
      injection h with hc _
      exact absurd (hc ▸ List.mem_cons_self c d₂) h₂
  | cons c d₁ ih =>
    intro d₂ v₁ v₂ h₁ h₂ h
    cases d₂ with
    | nil =>
      injection h with hc _
      exact absurd (hc ▸ List.mem_cons_self c d₁) h₁
    | cons c' d₂ =>
      injection h with hc h
      obtain ⟨hd, hv⟩ := ih (fun hm => h₁ (List.mem_cons_of_mem c hm))
        (fun hm => h₂ (List.mem_cons_of_mem c' hm)) h
      exact ⟨by rw [hc, hd], hv⟩

theorem lastSep_split {v₁ v₂ d₁ d₂ : List Char} (h₁ : '_' ∉ d₁) (h₂ : '_' ∉ d₂)
    (h : v₁ ++ '_' :: d₁ = v₂ ++ '_' :: d₂) : v₁ = v₂ ∧ d₁ = d₂ := by
  have hrev := congrArg List.reverse h
  simp only [List.reverse_append, List.reverse_cons, List.append_assoc,
    List.singleton_append] at hrev
  obtain ⟨hd, hv⟩ := headSep_split d₁.reverse
    (fun hm => h₁ (List.mem_reverse.mp hm))
    (fun hm => h₂ (List.mem_reverse.mp hm)) hrev
  constructor
  · have := congrArg List.reverse hv
    simpa using this
  · have := congrArg List.reverse hd
    simpa using this

/-! ### Run timestamps as the calendar fields `strftime` reads -/

structure DT where
  year : ℕ
  month : ℕ
  day : ℕ
  hour : ℕ
  minute : ℕ
deriving DecidableEq

/-- `run.strftime("%Y%m%d")`. -/
def yyyymmdd (r : DT) : List Char := fmt 4 r.year ++ fmt 2 r.month ++ fmt 2 r.day

/-- `run.strftime("%Y%m%d%H")`. -/
def yyyymmddhh (r : DT) : List Char := yyyymmdd r ++ fmt 2 r.hour

def upperStr (v : String) : List Char := v.data.map Char.toUpper

def lowerStr (v : String) : List Char := v.data.map Char.toLower

/-! ### Canonical local filenames and remote URLs -/

/-- The local filename built in the `download_gfs` loop
(src/src/components/gfs.py line 197):
`{domain}_{yyyymmddhh}_m{member:02d}_f{fhour:03d}.grib2`. -/
def gfs_fname (domain : String) (r : DT) (member fhour : ℕ) : List Char :=
  domain.data ++ '_' :: yyyymmddhh r ++ '_' :: 'm' :: fmt 2 member ++
    '_' :: 'f' :: fmt 3 fhour ++ ".grib2".data

/-- The local filename built in the `download_ecmwf` loop
(src/src/components/ecmwf.py line 146):
`{name}_{%Y%m%d}_{hour:02d}z_{step}h.grib2`. -/
def ecmwf_fname (name : String) (r : DT) (step : ℕ) : List Char :=
  name.data ++ '_' :: yyyymmdd r ++ '_' :: fmt 2 r.hour ++
    'z' :: '_' :: natDigits step ++ 'h' :: ".grib2".data

/-- The local filename built in the `download_icon` loop
(src/src/components/icon.py lines 113-116). The Python guard is `if level:`,
so both `None` and a level of 0 take the level-free branch. -/
def icon_fname (r : DT) (step : ℕ) (v : String) (level : Option ℕ) : List Char :=
  match level with
  | some (l + 1) =>
    "icon-eu_".data ++ yyyymmddhh r ++ '_' :: fmt 3 step ++ '_' :: v.data ++
      '_' :: natDigits (l + 1) ++ ".grib2".data
  | _ =>
    "icon-eu_".data ++ yyyymmddhh r ++ '_' :: fmt 3 step ++ '_' :: v.data ++
      ".grib2".data

/-- The remote filename built by `build_dwd_url`
(src/src/components/icon.py lines 69-75); here the guard is
`if level is not None`, so a level of 0 takes the leveled branch. -/
def dwdUrlFname (r : DT) (v : String) (step : ℕ) (level_type : String)
    (level : Option ℕ) : List Char :=
  match level with
  | some l =>
    "icon-eu_europe_regular-lat-lon_".data ++ level_type.data ++
      '_' :: yyyymmddhh r ++ '_' :: fmt 3 step ++ '_' :: natDigits l ++
        '_' :: upperStr v ++ ".grib2.bz2".data
  | none =>
    "icon-eu_europe_regular-lat-lon_".data ++ level_type.data ++
      '_' :: yyyymmddhh r ++ '_' :: fmt 3 step ++ '_' :: upperStr v ++
        ".grib2.bz2".data

/-- `build_dwd_url` (src/src/components/icon.py):
`BASE/{run_hour}/{var_lower}/{filename}`. -/
def build_dwd_url (r : DT) (v : String) (step : ℕ) (level_type : String)
    (level : Option ℕ) : List Char :=
  "https://opendata.dwd.de/weather/nwp/icon-eu/grib/".data ++ fmt 2 r.hour ++
    '/' :: lowerStr v ++ '/' :: dwdUrlFname r v step level_type level

theorem string_data_inj {a b : String} (h : a.data = b.data) : a = b :=
  congrArg String.mk h

/-- Claim C3 (amended): within one domain the canonical local filenames of
the GFS and ECMWF downloaders are injective over the components they
encode, and the ICON filename is injective between two requests that
either both carry a positive level or both carry none. -/
theorem c3_filename_injective_amended :
    (∀ (domain : String) (r₁ r₂ : DT) (m₁ m₂ f₁ f₂ : ℕ),
      r₁.year < 10000 → r₂.year < 10000 → r₁.month < 100 → r₂.month < 100 →
      r₁.day < 100 → r₂.day < 100 → r₁.hour < 100 → r₂.hour < 100 →
      m₁ < 100 → m₂ < 100 → f₁ < 1000 → f₂ < 1000 →
      gfs_fname domain r₁ m₁ f₁ = gfs_fname domain r₂ m₂ f₂ →
      yyyymmddhh r₁ = yyyymmddhh r₂ ∧ m₁ = m₂ ∧ f₁ = f₂)
    ∧ (∀ (name : String) (r₁ r₂ : DT) (s₁ s₂ : ℕ),
      r₁.year < 10000 → r₂.year < 10000 → r₁.month < 100 → r₂.month < 100 →
      r₁.day < 100 → r₂.day < 100 → r₁.hour < 100 → r₂.hour < 100 →
      ecmwf_fname name r₁ s₁ = ecmwf_fname name r₂ s₂ →
      yyyymmdd r₁ = yyyymmdd r₂ ∧ r₁.hour = r₂.hour ∧ s₁ = s₂)
    ∧ (∀ (r₁ r₂ : DT) (s₁ s₂ : ℕ) (v₁ v₂ : String) (l₁ l₂ : Option ℕ),
      r₁.year < 10000 → r₂.year < 10000 → r₁.month < 100 → r₂.month < 100 →
      r₁.day < 100 → r₂.day < 100 → r₁.hour < 100 → r₂.hour < 100 →
      s₁ < 1000 → s₂ < 1000 →
      ((l₁ = none ∧ l₂ = none) ∨ (∃ a b, l₁ = some (a + 1) ∧ l₂ = some (b + 1))) →
      icon_fname r₁ s₁ v₁ l₁ = icon_fname r₂ s₂ v₂ l₂ →
      yyyymmddhh r₁ = yyyymmddhh r₂ ∧ s₁ = s₂ ∧ v₁ = v₂ ∧ l₁ = l₂) := by
  refine ⟨?_, ?_, ?_⟩
  · intro domain r₁ r₂ m₁ m₂ f₁ f₂ hy₁ hy₂ hmo₁ hmo₂ hd₁ hd₂ hh₁ hh₂ hm₁ hm₂
      hf₁ hf₂ h
    unfold gfs_fname at h
    unfold yyyymmddhh yyyymmdd at h ⊢
    simp only [List.cons_append, List.append_assoc] at h
    have h := append_cancel_l h
    injection h with _ h
    obtain ⟨hy, h⟩ := fmt_strip (by omega) (by simpa using hy₁) (by simpa using hy₂) h
    obtain ⟨hmo, h⟩ := fmt_strip (by omega) (by simpa using hmo₁) (by simpa using hmo₂) h
    obtain ⟨hd, h⟩ := fmt_strip (by omega) (by simpa using hd₁) (by simpa using hd₂) h
    obtain ⟨hhh, h⟩ := fmt_strip (by omega) (by simpa using hh₁) (by simpa using hh₂) h
    injection h with _ h
    injection h with _ h
    obtain ⟨hm, h⟩ := fmt_strip (by omega) (by simpa using hm₁) (by simpa using hm₂) h
    injection h with _ h
    injection h with _ h
    obtain ⟨hf, _⟩ := fmt_strip (by omega) (by simpa using hf₁) (by simpa using hf₂) h
    exact ⟨by rw [hy, hmo, hd, hhh], hm, hf⟩
  · intro name r₁ r₂ s₁ s₂ hy₁ hy₂ hmo₁ hmo₂ hd₁ hd₂ hh₁ hh₂ h
    unfold ecmwf_fname at h
    unfold yyyymmdd at h ⊢
    simp only [List.cons_append, List.append_assoc] at h
    have h := append_cancel_l h
    injection h with _ h
    obtain ⟨hy, h⟩ := fmt_strip (by omega) (by simpa using hy₁) (by simpa using hy₂) h
    obtain ⟨hmo, h⟩ := fmt_strip (by omega) (by simpa using hmo₁) (by simpa using hmo₂) h
    obtain ⟨hd, h⟩ := fmt_strip (by omega) (by simpa using hd₁) (by simpa using hd₂) h
    injection h with _ h
    obtain ⟨hhh, h⟩ := fmt_strip (by omega) (by simpa using hh₁) (by simpa using hh₂) h
    injection h with _ h
    injection h with _ h
    exact ⟨by rw [hy, hmo, hd], hhh, natDigits_strip h⟩
  · intro r₁ r₂ s₁ s₂ v₁ v₂ l₁ l₂ hy₁ hy₂ hmo₁ hmo₂ hd₁ hd₂ hh₁ hh₂ hs₁ hs₂
      hpres h
    rcases hpres with ⟨hn₁, hn₂⟩ | ⟨a, b, hp₁, hp₂⟩
    · subst hn₁
      subst hn₂
      simp only [icon_fname] at h
      unfold yyyymmddhh yyyymmdd at h ⊢
      simp only [List.cons_append, List.append_assoc] at h
      simp only [List.cons.injEq, eq_self_iff_true, true_and, List.nil_append] at h
      obtain ⟨hy, h⟩ := fmt_strip (by omega) (by simpa using hy₁) (by simpa using hy₂) h
      obtain ⟨hmo, h⟩ := fmt_strip (by omega) (by simpa using hmo₁) (by simpa using hmo₂) h
      obtain ⟨hd, h⟩ := fmt_strip (by omega) (by simpa using hd₁) (by simpa using hd₂) h
      obtain ⟨hhh, h⟩ := fmt_strip (by omega) (by simpa using hh₁) (by simpa using hh₂) h
      injection h with _ h
      obtain ⟨hs, h⟩ := fmt_strip (by omega) (by simpa using hs₁) (by simpa using hs₂) h
      injection h with _ h
      have hv := append_cancel_r h
      exact ⟨by rw [hy, hmo, hd, hhh], hs, string_data_inj hv, rfl⟩
    · subst hp₁
      subst hp₂
      simp only [icon_fname] at h
      unfold yyyymmddhh yyyymmdd at h ⊢
      simp only [List.cons_append, List.append_assoc] at h
      simp only [List.cons.injEq, eq_self_iff_true, true_and, List.nil_append] at h
      obtain ⟨hy, h⟩ := fmt_strip (by omega) (by simpa using hy₁) (by simpa using hy₂) h
      obtain ⟨hmo, h⟩ := fmt_strip (by omega) (by simpa using hmo₁) (by simpa using hmo₂) h
      obtain ⟨hd, h⟩ := fmt_strip (by omega) (by simpa using hd₁) (by simpa using hd₂) h
      obtain ⟨hhh, h⟩ := fmt_strip (by omega) (by simpa using hh₁) (by simpa using hh₂) h
      injection h with _ h
      obtain ⟨hs, h⟩ := fmt_strip (by omega) (by simpa using hs₁) (by simpa using hs₂) h
      injection h with _ h
      have h2 : (v₁.data ++ '_' :: natDigits (a + 1)) ++ ".grib2".data =
          (v₂.data ++ '_' :: natDigits (b + 1)) ++ ".grib2".data := by
        simpa [List.append_assoc] using h
      have h3 := append_cancel_r h2
      obtain ⟨hv, hdig⟩ := lastSep_split
        (fun hm => natDigits_no_underscore hm rfl)
        (fun hm => natDigits_no_underscore hm rfl) h3
      have hab : a + 1 = b + 1 := natDigits_inj hdig
      exact ⟨by rw [hy, hmo, hd, hhh], hs, string_data_inj hv, by rw [hab]⟩

/-- Concrete instantiation of `c3_filename_injective_amended` on the GFS
conjunct at a fixed run, member and forecast hour. -/
theorem c3_filename_injective_amended_witness :
    yyyymmddhh ⟨2025, 1, 1, 0, 0⟩ = yyyymmddhh ⟨2025, 1, 1, 0, 0⟩ ∧
      (0 : ℕ) = 0 ∧ (3 : ℕ) = 3 :=
  c3_filename_injective_amended.1 "gfs025" ⟨2025, 1, 1, 0, 0⟩ ⟨2025, 1, 1, 0, 0⟩
    0 0 3 3 (by decide) (by decide) (by decide) (by decide) (by decide)
    (by decide) (by decide) (by decide) (by decide) (by decide) (by decide)
    (by decide) rfl

/-- Counterexample to claim C3 as stated: on the ICON domain the distinct
request tuples (variable `u_10`, no level) and (variable `u`, level 10)
produce the same canonical local filename. -/
theorem c3_icon_filename_collision :
    icon_fname ⟨2026, 1, 31, 0, 0⟩ 0 "u_10" none =
      icon_fname ⟨2026, 1, 31, 0, 0⟩ 0 "u" (some 10) ∧
    ¬ (("u_10", (none : Option ℕ)) = ("u", some 10)) := by
  constructor
  · rfl
  · simp

/-- Claim C9 (amended): in the DWD remote URL filename the level token sits
immediately before the uppercased variable token and is omitted entirely
for single-level requests, the leveled and single-level names sharing the
same stem; in the canonical local filename the level token instead sits
immediately after the variable token (and is likewise omitted when no
positive level is supplied). -/
theorem c9_icon_level_placement_amended (r : DT) (step : ℕ)
    (v level_type : String) (l : ℕ) :
    (∃ pre, dwdUrlFname r v step level_type (some l) =
        pre ++ '_' :: natDigits l ++ '_' :: upperStr v ++ ".grib2.bz2".data ∧
      dwdUrlFname r v step level_type none =
        pre ++ '_' :: upperStr v ++ ".grib2.bz2".data)
    ∧ (∃ pre, icon_fname r step v (some (l + 1)) =
        pre ++ '_' :: v.data ++ '_' :: natDigits (l + 1) ++ ".grib2".data ∧
      icon_fname r step v none = pre ++ '_' :: v.data ++ ".grib2".data) := by
  constructor
  · refine ⟨"icon-eu_europe_regular-lat-lon_".data ++ level_type.data ++
      '_' :: yyyymmddhh r ++ '_' :: fmt 3 step, ?_, ?_⟩
    · simp [dwdUrlFname, List.append_assoc, List.cons_append]
    · simp [dwdUrlFname, List.append_assoc, List.cons_append]
  · refine ⟨"icon-eu_".data ++ yyyymmddhh r ++ '_' :: fmt 3 step, ?_, ?_⟩
    · simp [icon_fname, List.append_assoc, List.cons_append]
    · simp [icon_fname, List.append_assoc, List.cons_append]

/-- Counterexample to claim C9 as stated: for the leveled request
(variable `t`, level 850) at run 2026-01-31 00 UTC, step 0, the level
digits followed by the variable token occur nowhere in the canonical local
filename (which is `icon-eu_2026013100_000_t_850.grib2`, level after the
variable), while they do occur in the remote URL filename. -/
theorem c9_icon_local_level_after_variable :
    containsSeq (natDigits 850 ++ '_' :: "t".data)
      (icon_fname ⟨2026, 1, 31, 0, 0⟩ 0 "t" (some 850)) = false ∧
    containsSeq (natDigits 850 ++ '_' :: upperStr "t")
      (dwdUrlFname ⟨2026, 1, 31, 0, 0⟩ "t" 0 "pressure-level" (some 850)) = true := by
  constructor
  · rfl
  · rfl

/-! ### GFS URL construction and host selection -/

def gfsAws : List Char := "https://noaa-gfs-bdp-pds.s3.amazonaws.com/".data

def gfsNomads : List Char :=
  "https://nomads.ncep.noaa.gov/pub/data/nccf/com/gfs/prod/".data

def gefsAws : List Char := "https://noaa-gefs-pds.s3.amazonaws.com/".data

def gefsNomads : List Char :=
  "https://nomads.ncep.noaa.gov/pub/data/nccf/com/gens/prod/".data

def hrrrNomads : List Char :=
  "https://nomads.ncep.noaa.gov/pub/data/nccf/com/hrrr/prod/".data

def hrrrAws : List Char := "https://noaa-hrrr-bdp-pds.s3.amazonaws.com/".data

/-- `"gec00" if member == 0 else f"gep{member:02d}"`. -/
def gefsMemberStr (member : ℕ) : List Char :=
  if member = 0 then "gec00".data else "gep".data ++ fmt 2 member

/-- `build_gfs_urls` from src/src/components/gfs.py. The internal clock
read is injected: `ageUs` stands for `now - run_dt` in microseconds, so
`age_sec > 36 * 3600` becomes `ageUs > 36 * 3600 * 10^6` (the float
division by 1e6 in `total_seconds` is exact at this scale). -/
def build_gfs_urls (domain : String) (r : DT) (forecast_hour member : ℕ)
    (use_aws : Bool) (ageUs : ℤ) : List (List Char) :=
  let hh := fmt 2 r.hour
  let fHHH := fmt 3 forecast_hour
  let use_archive := use_aws || decide (ageUs > 36 * 3600 * 1000000)
  let gfs_server := if use_archive then gfsAws else gfsNomads
  let gefs_server := if use_archive then gefsAws else gefsNomads
  let hrrr_server := if use_archive then hrrrAws else hrrrNomads
  if domain = "gfs05_ens" then
    [gefs_server ++ "gefs.".data ++ yyyymmdd r ++ '/' :: hh ++
      "/atmos/pgrb2ap5/".data ++ gefsMemberStr member ++ ".t".data ++ hh ++
      "z.pgrb2a.0p50.f".data ++ fHHH]
  else if domain = "gfs025_ens" then
    [gefs_server ++ "gefs.".data ++ yyyymmdd r ++ '/' :: hh ++
      "/atmos/pgrb2b25/".data ++ gefsMemberStr member ++ ".t".data ++ hh ++
      "z.pgrb2b.0p25.f".data ++ fHHH]
  else if domain = "gfswave025_ens" then
    [gefs_server ++ "gefs.".data ++ yyyymmdd r ++ '/' :: hh ++
      "/wave/gridded/".data ++ gefsMemberStr member ++ ".t".data ++ hh ++
      "z.global.0p25.f".data ++ fHHH ++ ".grib2".data]
  else if domain = "gfs025" then
    [gfs_server ++ "gfs.".data ++ yyyymmdd r ++ '/' :: hh ++
      "/atmos/gfs.t".data ++ hh ++ "z.pgrb2.0p25.f".data ++ fHHH]
  else if domain = "gfs013" then
    [gfs_server ++ "gfs.".data ++ yyyymmdd r ++ '/' :: hh ++
      "/atmos/gfs.t".data ++ hh ++ "z.pgrb2.0p13.f".data ++ fHHH]
  else if domain = "gfswave025" then
    [gfs_server ++ "gfs.".data ++ yyyymmdd r ++ '/' :: hh ++
      "/wave/gridded/gfswave.t".data ++ hh ++ "z.global.0p25.f".data ++ fHHH ++
      ".grib2".data]
  else if domain = "gfswave016" then
    [gfs_server ++ "gfs.".data ++ yyyymmdd r ++ '/' :: hh ++
      "/wave/gridded/gfswave.t".data ++ hh ++ "z.global.0p16.f".data ++ fHHH ++
      ".grib2".data]
  else if domain = "hrrr_conus" then
    [hrrr_server ++ "hrrr.".data ++ yyyymmdd r ++ "/conus/hrrr.t".data ++ hh ++
      "z.wrfsfcf".data ++ fHHH ++ ".grib2".data]
  else []

def archiveHosts : List (List Char) := [gfsAws, gefsAws, hrrrAws]

/-- A URL references the long-term AWS object storage exactly when it
starts with one of the three archive hosts. -/
def isArchiveUrl (u : List Char) : Bool :=
  archiveHosts.any (fun h => startsWith h u)

theorem startsWith_append_self : ∀ p t : List Char, startsWith p (p ++ t) = true := by
  intro p
  induction p with
  | nil => intro t; rfl
  | cons c p ih =>
    intro t
    simp [startsWith, ih]

theorem startsWith_of_long :
    ∀ p b : List Char, ∀ t : List Char, p.length ≤ b.length →
      startsWith p (b ++ t) = startsWith p b := by
  intro p
  induction p with
  | nil => intro b t _; rfl
  | cons c p ih =>
    intro b t hlen
    cases b with
    | nil => simp at hlen
    | cons c' b =>
      simp only [List.cons_append, startsWith, List.append_eq]
      rw [ih b t (by simpa using hlen)]

theorem isArchiveUrl_aws_gfs (p : List Char) : isArchiveUrl (gfsAws ++ p) = true := by
  simp [isArchiveUrl, archiveHosts, startsWith_append_self]

theorem isArchiveUrl_aws_gefs (p : List Char) : isArchiveUrl (gefsAws ++ p) = true := by
  simp [isArchiveUrl, archiveHosts, startsWith_append_self]

theorem isArchiveUrl_aws_hrrr (p : List Char) : isArchiveUrl (hrrrAws ++ p) = true := by
  simp [isArchiveUrl, archiveHosts, startsWith_append_self]

theorem isArchiveUrl_nomads_gfs (p : List Char) :
    isArchiveUrl (gfsNomads ++ p) = false := by
  unfold isArchiveUrl archiveHosts
  simp only [List.any_cons, List.any_nil, Bool.or_false]
  rw [startsWith_of_long gfsAws gfsNomads p (by decide),
    startsWith_of_long gefsAws gfsNomads p (by decide),
    startsWith_of_long hrrrAws gfsNomads p (by decide)]
  decide

theorem isArchiveUrl_nomads_gefs (p : List Char) :
    isArchiveUrl (gefsNomads ++ p) = false := by
  unfold isArchiveUrl archiveHosts
  simp only [List.any_cons, List.any_nil, Bool.or_false]
  rw [startsWith_of_long gfsAws gefsNomads p (by decide),
    startsWith_of_long gefsAws gefsNomads p (by decide),
    startsWith_of_long hrrrAws gefsNomads p (by decide)]
  decide

theorem isArchiveUrl_nomads_hrrr (p : List Char) :
    isArchiveUrl (hrrrNomads ++ p) = false := by
  unfold isArchiveUrl archiveHosts
  simp only [List.any_cons, List.any_nil, Bool.or_false]
  rw [startsWith_of_long gfsAws hrrrNomads p (by decide),
    startsWith_of_long gefsAws hrrrNomads p (by decide),
    startsWith_of_long hrrrAws hrrrNomads p (by decide)]
  decide

theorem ite_boolTrue {α : Sort _} {a b : α} : (if true = true then a else b) = a := rfl

theorem ite_boolFalse {α : Sort _} {a b : α} : (if false = true then a else b) = b := rfl

set_option maxHeartbeats 1000000 in
/-- Claim C7: every URL produced by `build_gfs_urls` references an archive
(AWS object-storage) host exactly when the caller requested AWS or the run
is more than 36 hours old relative to the clock; in particular a fresh run
with `use_aws = false` is served from the operational NOMADS host. -/
theorem c7_gfs_host_selection (domain : String) (r : DT)
    (forecast_hour member : ℕ) (use_aws : Bool) (ageUs : ℤ) :
    ∀ u ∈ build_gfs_urls domain r forecast_hour member use_aws ageUs,
      isArchiveUrl u = (use_aws || decide (ageUs > 36 * 3600 * 1000000)) := by
  intro u hu
  simp only [build_gfs_urls] at hu
  generalize hc : (use_aws || decide (ageUs > 36 * 3600 * 1000000)) = c at hu ⊢
  cases c with
  | true =>
    simp only [ite_boolTrue] at hu
    split_ifs at hu
    · rw [List.mem_singleton] at hu; subst hu; exact isArchiveUrl_aws_gefs _
    · rw [List.mem_singleton] at hu; subst hu; exact isArchiveUrl_aws_gefs _
    · rw [List.mem_singleton] at hu; subst hu; exact isArchiveUrl_aws_gefs _
    · rw [List.mem_singleton] at hu; subst hu; exact isArchiveUrl_aws_gfs _
    · rw [List.mem_singleton] at hu; subst hu; exact isArchiveUrl_aws_gfs _
    · rw [List.mem_singleton] at hu; subst hu; exact isArchiveUrl_aws_gfs _
    · rw [List.mem_singleton] at hu; subst hu; exact isArchiveUrl_aws_gfs _
    · rw [List.mem_singleton] at hu; subst hu; exact isArchiveUrl_aws_hrrr _
    · exact absurd hu (List.not_mem_nil u)
  | false =>
    simp only [ite_boolFalse] at hu
    split_ifs at hu
    · rw [List.mem_singleton] at hu; subst hu; exact isArchiveUrl_nomads_gefs _
    · rw [List.mem_singleton] at hu; subst hu; exact isArchiveUrl_nomads_gefs _
    · rw [List.mem_singleton] at hu; subst hu; exact isArchiveUrl_nomads_gefs _
    · rw [List.mem_singleton] at hu; subst hu; exact isArchiveUrl_nomads_gfs _
    · rw [List.mem_singleton] at hu; subst hu; exact isArchiveUrl_nomads_gfs _
    · rw [List.mem_singleton] at hu; subst hu; exact isArchiveUrl_nomads_gfs _
    · rw [List.mem_singleton] at hu; subst hu; exact isArchiveUrl_nomads_gfs _
    · rw [List.mem_singleton] at hu; subst hu; exact isArchiveUrl_nomads_hrrr _
    · exact absurd hu (List.not_mem_nil u)

/-- Concrete instantiation of `c7_gfs_host_selection`: a fresh gfs025 run
requested without `use_aws` yields the NOMADS URL, which is not an archive
URL. -/
theorem c7_gfs_host_selection_witness :
    isArchiveUrl ("https://nomads.ncep.noaa.gov/pub/data/nccf/com/gfs/prod/gfs.20250101/00/atmos/gfs.t00z.pgrb2.0p25.f000".data) =
      (false || decide ((0 : ℤ) > 36 * 3600 * 1000000)) :=
  c7_gfs_host_selection "gfs025" ⟨2025, 1, 1, 0, 0⟩ 0 0 false 0 _ (by decide)

/-! ### Orchestrator model: store, transport and the download loops -/

/-- One possible outcome of fetching a URL: success; a failure before the
local file is opened (connection error or `raise_for_status`); a failure
after part of the body was written that propagates to the downloader's
outer per-artifact handler (a mid-stream network error); or a failure
after part of the body was written that an inner handler catches so that
it never reaches the outer handler — icon.py's decompression/write
`except OSError: break` path (lines 142-145). -/
inductive FetchResult where
  | success : FetchResult
  | failNoFile : FetchResult
  | failPartial : FetchResult
  | failDecompress : FetchResult
deriving DecidableEq

/-- The injected transport: one outcome per URL. -/
abbrev Oracle : Type := List Char → FetchResult

/-- The LocalStore: filenames on disk, flagged `true` when complete and
`false` when only a partial body was written. -/
abbrev Store : Type := List (List Char × Bool)

/-- The `out_path.exists()` check: partial files count as present. -/
def Store.hasFile (st : Store) (f : List Char) : Bool :=
  st.any (fun e => decide (e.1 = f))

/-- One download-loop iteration: skip when the canonical filename exists,
otherwise issue the request. On a mid-stream failure reaching the outer
per-artifact handler (`failPartial`) the partial file stays on disk
unless `cleanup` is set — the `out_path.unlink()` handler that only
src/src/components/icon.py has. A failure caught by an inner handler
(`failDecompress`, icon.py's decompression/write `except OSError: break`)
never reaches that outer handler, so the partial file stays on disk in
every downloader, `cleanup` or not. Returns the new store and the issued
requests. -/
def fetchArtifact (cleanup : Bool) (orc : Oracle) (st : Store)
    (uf : List Char × List Char) : Store × List (List Char) :=
  if Store.hasFile st uf.2 then (st, [])
  else
    match orc uf.1 with
    | FetchResult.success => ((uf.2, true) :: st, [uf.1])
    | FetchResult.failNoFile => (st, [uf.1])
    | FetchResult.failPartial =>
        (if cleanup then st else (uf.2, false) :: st, [uf.1])
    | FetchResult.failDecompress => ((uf.2, false) :: st, [uf.1])

/-- The sequential loop over (url, filename) artifacts shared by the
downloaders. -/
def runLoop (cleanup : Bool) (orc : Oracle) :
    List (List Char × List Char) → Store → Store × List (List Char)
  | [], st => (st, [])
  | a :: rest, st =>
    let r1 := fetchArtifact cleanup orc st a
    let r2 := runLoop cleanup orc rest r1.1
    (r2.1, r1.2 ++ r2.2)

/-- `flatMap`, spelled out to keep the nested loops of the sources
explicit. -/
def joinMap {α β : Type} (f : α → List β) : List α → List β
  | [] => []
  | a :: as => f a ++ joinMap f as

/-- `ENSEMBLE_MEMBER_COUNT` (src/src/components/gfs.py). -/
def ensembleMemberCount (domain : String) : Option ℕ :=
  if domain ∈ ["gfs05_ens", "gfs025_ens", "gfswave025_ens"] then some 31
  else none

/-- The member enumeration of `download_gfs`: ensemble domains get
`range(min(count, max_members))`, deterministic domains the single member
0. -/
def gfsMembers (domain : String) (max_members : Option ℕ) : List ℕ :=
  match ensembleMemberCount domain with
  | some n =>
    List.range (match max_members with | none => n | some m => min n m)
  | none => [0]

/-- `download_gfs` (src/src/components/gfs.py) with store, transport and
clock injected. `run` is required here (the `run=None` auto-resolution
path goes through `last_run`, modelled above); `ageUs` is the age of the
run against the clock, as in `build_gfs_urls`. `.error` embeds the
`ValueError` for an invalid domain; the result collects the URLs actually
requested, in loop order (members outer, forecast hours inner).
Directory creation, logging and byte streaming are unmodelled I/O. -/
def download_gfs (domain : String) (st : Store) (orc : Oracle) (r : DT)
    (ageUs : ℤ) (use_aws second_flush : Bool)
    (max_forecast_hour max_members : Option ℕ) :
    Except String (Store × List (List Char)) :=
  if domain ∉ gfsDOMAINS then Except.error ("Invalid domain: " ++ domain)
  else
    match forecast_hours domain r.hour second_flush with
    | none => Except.error ("Unknown domain for forecast_hours: " ++ domain)
    | some fh0 =>
      let fhours := match max_forecast_hour with
        | none => fh0
        | some m => fh0.filter (fun h => decide (h ≤ m))
      let arts := joinMap (fun mem => joinMap (fun fh =>
        (build_gfs_urls domain r fh mem use_aws ageUs).map
          (fun u => (u, gfs_fname domain r mem fh))) fhours)
        (gfsMembers domain max_members)
      Except.ok (runLoop false orc arts st)

/-- `download_icon` (src/src/components/icon.py) with store and transport
injected: variables outer, steps inner. Partial files are unlinked only
on a fetch failure that reaches the outer per-artifact handler
(`failPartial`); a decompression/write failure caught by the inner
handler (`failDecompress`) leaves the partial file on disk. -/
def download_icon (r : DT) (vars : List String) (steps : List ℕ)
    (level_type : String) (level : Option ℕ) (st : Store) (orc : Oracle) :
    Store × List (List Char) :=
  runLoop true orc
    (joinMap (fun v => steps.map (fun s =>
      (build_dwd_url r v s level_type level, icon_fname r s v level)))
      vars)
    st

/-- The stream renaming of `EcmwfDomain.get_urls`: the IFS deterministic
and wave domains switch to scda/scwv for the 06/18 UTC runs. -/
def ecmwfStream (d : EcmwfDomain) (run_hour : ℕ) : String :=
  if (d.name = "ifs025" ∨ d.name = "wam025") ∧ (run_hour = 6 ∨ run_hour = 18)
  then
    (if d.base_stream = "oper" then "scda"
     else if d.base_stream = "wave" then "scwv"
     else d.base_stream)
  else d.base_stream

/-- `EcmwfDomain.get_urls` (src/src/components/ecmwf.py). -/
def ecmwf_get_urls (d : EcmwfDomain) (r : DT) (step : ℕ) : List (List Char) :=
  ["https://data.ecmwf.int/forecasts/".data ++ yyyymmdd r ++
    '/' :: fmt 2 r.hour ++ "z/".data ++ d.system.data ++
    '/' :: d.resolution.data ++ '/' :: (ecmwfStream d r.hour).data ++
    '/' :: yyyymmdd r ++ fmt 2 r.hour ++ "0000-".data ++ natDigits step ++
    "h-".data ++ (ecmwfStream d r.hour).data ++ "-fc.grib2".data]

/-- `download_ecmwf` (src/src/components/ecmwf.py). Its `try/except`
around domain construction catches the `ValueError` and returns normally,
so an unknown domain yields `.ok` with an unchanged store and no
requests. -/
def download_ecmwf (domain : String) (st : Store) (orc : Oracle) (r : DT)
    (max_forecast_hour : Option ℕ) :
    Except String (Store × List (List Char)) :=
  match ecmwfDomainInit domain with
  | none => Except.ok (st, [])
  | some d =>
    let fh0 := d.get_download_forecast_steps r.hour
    let fhours := match max_forecast_hour with
      | none => fh0
      | some m => fh0.filter (fun h => decide (h ≤ m))
    let arts := joinMap (fun h =>
      (ecmwf_get_urls d r h).map (fun u => (u, ecmwf_fname d.name r h)))
      fhours
    Except.ok (runLoop false orc arts st)

/-- Grid resolution token per ARPEGE domain
(src/src/components/arpage.py `DOMAINS`). -/
def arpegeGridRes (domain : String) : String :=
  if domain = "arpege_europe" then "01" else "025"

/-- Package time blocks per ARPEGE domain, paired with the start hour that
`int(p_time.split("H")[0])` parses from each block label. -/
def arpegePackageTimes (domain : String) : List (String × ℕ) :=
  if domain = "arpege_europe" then
    [("000H012H", 0), ("013H024H", 13), ("025H036H", 25), ("037H048H", 37),
     ("049H060H", 49), ("061H072H", 61), ("073H084H", 73), ("085H096H", 85),
     ("097H102H", 97)]
  else
    [("000H024H", 0), ("025H048H", 25), ("049H072H", 49), ("073H102H", 73)]

def arpegePackages : List String := ["SP1", "SP2", "HP1", "IP1"]

/-- `run.strftime("%Y-%m-%dT%H:%M")`. -/
def arpegeRunIso (r : DT) : List Char :=
  fmt 4 r.year ++ '-' :: fmt 2 r.month ++ '-' :: fmt 2 r.day ++
    'T' :: fmt 2 r.hour ++ ':' :: fmt 2 r.minute

/-- `build_gov_url` (src/src/components/arpage.py). -/
def build_gov_url (domain : String) (r : DT) (package package_time : String) :
    List Char :=
  "https://object.data.gouv.fr/meteofrance-pnt/pnt/".data ++ arpegeRunIso r ++
    ":00Z/arpege/".data ++ (arpegeGridRes domain).data ++ '/' :: package.data ++
    '/' :: "arpege__".data ++ (arpegeGridRes domain).data ++ "__".data ++
    package.data ++ "__".data ++ package_time.data ++ "__".data ++
    arpegeRunIso r ++ ":00Z.grib2".data

/-- The local filename built in the `download_arpege` loop. -/
def arpege_fname (domain : String) (r : DT) (package package_time : String) :
    List Char :=
  domain.data ++ '_' :: yyyymmddhh r ++ '_' :: package.data ++
    '_' :: package_time.data ++ ".grib2".data

/-- `download_arpege` (src/src/components/arpage.py): unknown domains
raise (`.error`); package time blocks whose start hour exceeds
`max_forecast_hour` are skipped entirely; time blocks outer, packages
inner. -/
def download_arpege (domain : String) (st : Store) (orc : Oracle) (r : DT)
    (max_forecast_hour : Option ℕ) :
    Except String (Store × List (List Char)) :=
  if domain ∉ arpegeDomains then Except.error ("Unknown domain: " ++ domain)
  else
    let ptimes := (arpegePackageTimes domain).filter (fun pt =>
      match max_forecast_hour with
      | none => true
      | some m => decide (pt.2 ≤ m))
    let arts := joinMap (fun pt => arpegePackages.map (fun pkg =>
      (build_gov_url domain r pkg pt.1, arpege_fname domain r pkg pt.1)))
      ptimes
    Except.ok (runLoop false orc arts st)

theorem hasFile_cons (a : List Char × Bool) (st : Store) (f : List Char) :
    Store.hasFile (a :: st) f = (decide (a.1 = f) || Store.hasFile st f) := rfl

theorem runLoop_cons (cleanup : Bool) (orc : Oracle)
    (a : List Char × List Char) (rest : List (List Char × List Char))
    (st : Store) :
    runLoop cleanup orc (a :: rest) st =
      ((runLoop cleanup orc rest (fetchArtifact cleanup orc st a).1).1,
        (fetchArtifact cleanup orc st a).2 ++
          (runLoop cleanup orc rest (fetchArtifact cleanup orc st a).1).2) :=
  rfl

theorem fetchArtifact_fst (cleanup : Bool) (orc : Oracle) (st : Store)
    (uf : List Char × List Char) :
    (fetchArtifact cleanup orc st uf).1 = st ∨
      ∃ b, (fetchArtifact cleanup orc st uf).1 = (uf.2, b) :: st := by
  unfold fetchArtifact
  by_cases h1 : Store.hasFile st uf.2 = true
  · rw [if_pos h1]
    exact Or.inl rfl
  · rw [if_neg h1]
    cases orc uf.1 with
    | success => exact Or.inr ⟨true, rfl⟩
    | failNoFile => exact Or.inl rfl
    | failPartial =>
      cases cleanup with
      | true => exact Or.inl rfl
      | false => exact Or.inr ⟨false, rfl⟩
    | failDecompress => exact Or.inr ⟨false, rfl⟩

theorem fetchArtifact_cleanup_fst (orc : Oracle) (st : Store)
    (uf : List Char × List Char)
    (hnd : orc uf.1 ≠ FetchResult.failDecompress) :
    (fetchArtifact true orc st uf).1 = st ∨
      (fetchArtifact true orc st uf).1 = (uf.2, true) :: st := by
  unfold fetchArtifact
  by_cases h1 : Store.hasFile st uf.2 = true
  · rw [if_pos h1]
    exact Or.inl rfl
  · rw [if_neg h1]
    rcases horc : orc uf.1 with _ | _ | _ | _
    · exact Or.inr rfl
    · exact Or.inl rfl
    · exact Or.inl rfl
    · exact absurd horc hnd

theorem fetchArtifact_skip (cleanup : Bool) (orc : Oracle) (st : Store)
    (uf : List Char × List Char) (h : Store.hasFile st uf.2 = true) :
    fetchArtifact cleanup orc st uf = (st, []) := by
  unfold fetchArtifact
  rw [if_pos h]

theorem fetchArtifact_success_mem (cleanup : Bool) (orc : Oracle)
    (st : Store) (uf : List Char × List Char)
    (hsucc : orc uf.1 = FetchResult.success) :
    Store.hasFile (fetchArtifact cleanup orc st uf).1 uf.2 = true := by
  unfold fetchArtifact
  by_cases h1 : Store.hasFile st uf.2 = true
  · rw [if_pos h1]
    exact h1
  · rw [if_neg h1, hsucc]
    simp [hasFile_cons]

theorem hasFile_mono_fetch (cleanup : Bool) (orc : Oracle) (st : Store)
    (uf : List Char × List Char) (f : List Char)
    (h : Store.hasFile st f = true) :
    Store.hasFile (fetchArtifact cleanup orc st uf).1 f = true := by
  rcases fetchArtifact_fst cleanup orc st uf with he | ⟨b, he⟩
  · rw [he]
    exact h
  · rw [he, hasFile_cons, h]
    simp

theorem runLoop_hasFile_mono (cleanup : Bool) (orc : Oracle) :
    ∀ (arts : List (List Char × List Char)) (st : Store) (f : List Char),
      Store.hasFile st f = true →
      Store.hasFile (runLoop cleanup orc arts st).1 f = true := by
  intro arts
  induction arts with
  | nil =>
    intro st f h
    exact h
  | cons a rest ih =>
    intro st f h
    simp only [runLoop_cons]
    exact ih _ f (hasFile_mono_fetch cleanup orc st a f h)

theorem runLoop_skip_all (cleanup : Bool) (orc : Oracle) :
    ∀ (arts : List (List Char × List Char)) (st : Store),
      (∀ a ∈ arts, Store.hasFile st a.2 = true) →
      runLoop cleanup orc arts st = (st, []) := by
  intro arts
  induction arts with
  | nil =>
    intro st _
    rfl
  | cons a rest ih =>
    intro st hall
    simp only [runLoop_cons,
      fetchArtifact_skip cleanup orc st a (hall a (List.mem_cons_self a rest)),
      ih st (fun b hb => hall b (List.mem_cons_of_mem a hb)),
      List.nil_append]

theorem runLoop_success_present (cleanup : Bool) (orc : Oracle)
    (hsucc : ∀ u, orc u = FetchResult.success) :
    ∀ (arts : List (List Char × List Char)) (st : Store),
      ∀ a ∈ arts, Store.hasFile (runLoop cleanup orc arts st).1 a.2 = true := by
  intro arts
  induction arts with
  | nil =>
    intro st a ha
    exact absurd ha (List.not_mem_nil a)
  | cons b rest ih =>
    intro st a ha
    simp only [runLoop_cons]
    rcases List.mem_cons.mp ha with h | h
    · subst h
      exact runLoop_hasFile_mono cleanup orc rest _ _
        (fetchArtifact_success_mem cleanup orc st a (hsucc a.1))
    · exact ih _ a h

theorem runLoop_no_new_partials (orc : Oracle)
    (hnd : ∀ u, orc u ≠ FetchResult.failDecompress) :
    ∀ (arts : List (List Char × List Char)) (st : Store) (f : List Char),
      (f, false) ∈ (runLoop true orc arts st).1 → (f, false) ∈ st := by
  intro arts
  induction arts with
  | nil =>
    intro st f h
    exact h
  | cons a rest ih =>
    intro st f h
    simp only [runLoop_cons] at h
    have h2 := ih _ f h
    rcases fetchArtifact_cleanup_fst orc st a (hnd a.1) with he | he
    · rwa [he] at h2
    · rw [he] at h2
      rcases List.mem_cons.mp h2 with h3 | h3
      · simp at h3
      · exact h3

/-- Claim C4 evaluated on the code: with an unregistered domain,
`download_gfs` and `download_arpege` raise to the caller before any
request is issued, but `download_ecmwf` catches the configuration error
internally and returns normally — no error, no store change, no requests
— contradicting the claim and the repository's own test
`test_invalid_domains`, which expects the `ValueError` to propagate. -/
theorem c4_unknown_domain_behavior (st : Store) (orc : Oracle) (r : DT) :
    download_gfs "fake_gfs" st orc r 0 false false none none =
      Except.error ("Invalid domain: " ++ "fake_gfs")
    ∧ download_arpege "fake_arpege" st orc r none =
      Except.error ("Unknown domain: " ++ "fake_arpege")
    ∧ download_ecmwf "fake_ecmwf" st orc r none = Except.ok (st, []) :=
  ⟨rfl, rfl, rfl⟩

/-- Claim C6 (amended): the partial-file cleanup exists only in the ICON
downloader and only for fetch failures that reach its outer per-artifact
handler — when the transport produces no inner-handler failure, a
`download_icon` run leaves no partial entry that was not already in the
store. A decompression/write failure caught by ICON's inner handler
leaves the partial file in place without unlinking (second conjunct), as
does every failure in the GFS downloader and `BaseDownloader.download`,
see `c6_gfs_partial_file_persists`. -/
theorem c6_icon_partial_cleanup (r : DT) (vars : List String)
    (steps : List ℕ) (level_type : String) (level : Option ℕ) (st : Store)
    (orc : Oracle) :
    ((∀ u, orc u ≠ FetchResult.failDecompress) →
      ∀ f, (f, false) ∈ (download_icon r vars steps level_type level st orc).1 →
        (f, false) ∈ st)
    ∧ (download_icon ⟨2026, 1, 31, 0, 0⟩ ["t"] [0] "single-level" none []
        (fun _ => FetchResult.failDecompress)).1 =
      [(icon_fname ⟨2026, 1, 31, 0, 0⟩ 0 "t" none, false)] := by
  constructor
  · intro hnd f h
    exact runLoop_no_new_partials orc hnd _ st f h
  · rfl

/-- Concrete instantiation of `c6_icon_partial_cleanup`: a pre-existing
partial file is still the only partial entry after an ICON run whose
fetch fails mid-write with an error that reaches the outer handler. -/
theorem c6_icon_partial_cleanup_witness :
    (['x'], false) ∈ ([(['x'], false)] : Store) :=
  (c6_icon_partial_cleanup ⟨2026, 1, 31, 0, 0⟩ ["t"] [0] "single-level" none
      [(['x'], false)] (fun _ => FetchResult.failPartial)).1
    (fun u => by decide) ['x'] (by decide)

/-- Counterexample to claim C6 as stated: a gfs025 fetch that fails after
the file was opened leaves the partial file in the store (`download_gfs`
has no cleanup handler), and a retry then counts the artifact as skipped,
issuing no request at all. -/
theorem c6_gfs_partial_file_persists :
    download_gfs "gfs025" [] (fun _ => FetchResult.failPartial)
        ⟨2025, 1, 1, 0, 0⟩ 0 false false (some 0) none =
      Except.ok ([(gfs_fname "gfs025" ⟨2025, 1, 1, 0, 0⟩ 0 0, false)],
        build_gfs_urls "gfs025" ⟨2025, 1, 1, 0, 0⟩ 0 0 false 0)
    ∧ download_gfs "gfs025" [(gfs_fname "gfs025" ⟨2025, 1, 1, 0, 0⟩ 0 0, false)]
        (fun _ => FetchResult.success) ⟨2025, 1, 1, 0, 0⟩ 0 false false
        (some 0) none =
      Except.ok ([(gfs_fname "gfs025" ⟨2025, 1, 1, 0, 0⟩ 0 0, false)], []) :=
  ⟨rfl, rfl⟩

/-- Claim C8: after a fully successful run, a second run of the same
downloader against the resulting store issues zero network requests and
leaves the store unchanged — every artifact whose canonical filename
exists is skipped. Stated for the GFS and ICON download loops. -/
theorem c8_second_run_no_requests (domain : String) (st st₁ : Store)
    (reqs : List (List Char)) (orc₂ : Oracle) (r : DT) (ageUs : ℤ)
    (use_aws second_flush : Bool) (max_fh max_mem : Option ℕ)
    (vars : List String) (steps : List ℕ) (level_type : String)
    (level : Option ℕ) :
    (download_gfs domain st (fun _ => FetchResult.success) r ageUs use_aws
        second_flush max_fh max_mem = Except.ok (st₁, reqs) →
      download_gfs domain st₁ orc₂ r ageUs use_aws second_flush max_fh
        max_mem = Except.ok (st₁, []))
    ∧ download_icon r vars steps level_type level
        (download_icon r vars steps level_type level st
          (fun _ => FetchResult.success)).1 orc₂ =
      ((download_icon r vars steps level_type level st
        (fun _ => FetchResult.success)).1, []) := by
  constructor
  · intro h
    unfold download_gfs at h ⊢
    split_ifs at h ⊢ with hd
    rcases hfh : forecast_hours domain r.hour second_flush with _ | fh0
    · simp only [hfh] at h
      exact absurd h (by simp)
    · simp only [hfh] at h ⊢
      injection h with h
      have h1 : _ = st₁ := congrArg Prod.fst h
      rw [runLoop_skip_all false orc₂ _ st₁ (fun a ha => by
        rw [← h1]
        exact runLoop_success_present false _ (fun u => rfl) _ st a ha)]
  · unfold download_icon
    rw [runLoop_skip_all true orc₂ _ _ (fun a ha =>
      runLoop_success_present true _ (fun u => rfl) _ st a ha)]

/-- Concrete instantiation of `c8_second_run_no_requests`: the second
gfs025 run over the store left by a successful first run skips its single
artifact and issues no request. -/
theorem c8_second_run_no_requests_witness :
    download_gfs "gfs025" [(gfs_fname "gfs025" ⟨2025, 1, 1, 0, 0⟩ 0 0, true)]
        (fun _ => FetchResult.failNoFile) ⟨2025, 1, 1, 0, 0⟩ 0 false false
        (some 0) none =
      Except.ok ([(gfs_fname "gfs025" ⟨2025, 1, 1, 0, 0⟩ 0 0, true)], []) :=
  (c8_second_run_no_requests "gfs025" []
      [(gfs_fname "gfs025" ⟨2025, 1, 1, 0, 0⟩ 0 0, true)]
      (build_gfs_urls "gfs025" ⟨2025, 1, 1, 0, 0⟩ 0 0 false 0)
      (fun _ => FetchResult.failNoFile) ⟨2025, 1, 1, 0, 0⟩ 0 false false
      (some 0) none [] [] "single-level" none).1 rfl

theorem build_gfs_urls_nam_conus_nil (r : DT) (fh mem : ℕ) (aws : Bool)
    (ageUs : ℤ) : build_gfs_urls "nam_conus" r fh mem aws ageUs = [] := rfl

theorem build_gfs_urls_hrrr15_nil (r : DT) (fh mem : ℕ) (aws : Bool)
    (ageUs : ℤ) :
    build_gfs_urls "hrrr_conus_15min" r fh mem aws ageUs = [] := rfl

theorem joinMap_nil_fun {α β : Type} :
    ∀ l : List α, joinMap (fun _ => ([] : List β)) l = []
  | [] => rfl
  | a :: as => by
    show [] ++ joinMap (fun _ => ([] : List β)) as = []
    rw [List.nil_append]
    exact joinMap_nil_fun as

/-- Claim C10: the registered GFS-family domains `nam_conus` and
`hrrr_conus_15min` have no branch in `build_gfs_urls`, which returns the
empty list for every input; `download_gfs` therefore accepts them without
error, enumerates their forecast hours, and attempts zero downloads,
returning the store unchanged with no requests. -/
theorem c10_registered_domains_without_urls (r : DT) (fh mem : ℕ)
    (use_aws second_flush : Bool) (ageUs : ℤ) (st : Store) (orc : Oracle)
    (max_fh max_mem : Option ℕ) :
    build_gfs_urls "nam_conus" r fh mem use_aws ageUs = []
    ∧ build_gfs_urls "hrrr_conus_15min" r fh mem use_aws ageUs = []
    ∧ (forecast_hours "nam_conus" r.hour second_flush).isSome = true
    ∧ (forecast_hours "hrrr_conus_15min" r.hour second_flush).isSome = true
    ∧ download_gfs "nam_conus" st orc r ageUs use_aws second_flush max_fh
        max_mem = Except.ok (st, [])
    ∧ download_gfs "hrrr_conus_15min" st orc r ageUs use_aws second_flush
        max_fh max_mem = Except.ok (st, []) := by
  refine ⟨rfl, rfl, rfl, rfl, ?_, ?_⟩
  · have harts : ∀ fh0 : List ℕ,
        joinMap (fun mem => joinMap (fun fh =>
          (build_gfs_urls "nam_conus" r fh mem use_aws ageUs).map
            (fun u => (u, gfs_fname "nam_conus" r mem fh))) fh0)
          (gfsMembers "nam_conus" max_mem) = [] := by
      intro fh0
      simp only [build_gfs_urls_nam_conus_nil, List.map_nil, joinMap_nil_fun]
    have hfh : forecast_hours "nam_conus" r.hour second_flush =
        some (pyRange 0 61 1) := rfl
    unfold download_gfs
    rw [if_neg (by decide)]
    simp only [hfh]
    rw [harts]
    rfl
  · have harts : ∀ fh0 : List ℕ,
        joinMap (fun mem => joinMap (fun fh =>
          (build_gfs_urls "hrrr_conus_15min" r fh mem use_aws ageUs).map
            (fun u => (u, gfs_fname "hrrr_conus_15min" r mem fh))) fh0)
          (gfsMembers "hrrr_conus_15min" max_mem) = [] := by
      intro fh0
      simp only [build_gfs_urls_hrrr15_nil, List.map_nil, joinMap_nil_fun]
    have hfh : forecast_hours "hrrr_conus_15min" r.hour second_flush =
        some (pyRange 0 73 1) := rfl
    unfold download_gfs
    rw [if_neg (by decide)]
    simp only [hfh]
    rw [harts]
    rfl

/-- Claim C5 (amended): no enumerator ever raises for an unpublished run
hour — there is no `InvalidRunHourError` in the code. `forecast_hours`
succeeds for every registered GFS-family domain at every run hour, ECMWF
step enumeration succeeds for every registered ECMWF domain, and the
IFS/WAM domains return the empty step list for run hours outside
{0, 6, 12, 18} instead of failing. -/
theorem c5_enumerators_total_no_run_hour_error (domain : String)
    (run_hour : ℕ) (second_flush : Bool) :
    (domain ∈ gfsDOMAINS →
      (forecast_hours domain run_hour second_flush).isSome = true)
    ∧ ((ecmwfDomainInit domain).isSome = true →
      (ecmwfSteps domain run_hour).isSome = true)
    ∧ (domain ∈ ["ifs025", "ifs025_ensemble", "wam025", "wam025_ensemble"] →
      run_hour ∉ ([0, 6, 12, 18] : List ℕ) →
      ecmwfSteps domain run_hour = some []) := by
  refine ⟨?_, ?_, ?_⟩
  · intro hd
    fin_cases hd <;>
      first
        | rfl
        | (unfold forecast_hours
           split_ifs <;> first | rfl | simp_all)
  · intro h
    unfold ecmwfSteps
    rcases hinit : ecmwfDomainInit domain with _ | d
    · simp [hinit] at h
    · rfl
  · intro hd hrh
    simp only [List.mem_cons, List.mem_singleton, not_or] at hrh
    obtain ⟨h0, h6, h12, h18⟩ := hrh
    fin_cases hd <;>
      simp [ecmwfSteps, ecmwfDomainInit, ecmwfResolveAlias, ecmwfConfig,
        EcmwfDomain.get_download_forecast_steps, strContains, containsSeq,
        startsWith, h0, h6, h12, h18]

/-- Concrete instantiation of `c5_enumerators_total_no_run_hour_error` for
the gfs025 domain at run hour 0. -/
theorem c5_enumerators_total_no_run_hour_error_witness :
    (forecast_hours "gfs025" 0 false).isSome = true :=
  (c5_enumerators_total_no_run_hour_error "gfs025" 0 false).1 (by decide)

/-- Counterexample to claim C5 as stated: run hour 5 is never published
by the ECMWF IFS deterministic domain, yet the enumerator succeeds with
the empty step list instead of failing, and the GFS enumerator succeeds
even at the impossible run hour 99. -/
theorem c5_invalid_run_hour_succeeds :
    ecmwfSteps "ifs025" 5 = some [] ∧
    (forecast_hours "gfs025" 99 false).isSome = true :=
  ⟨rfl, rfl⟩
